import Mathlib

/-!
Verification of the structural Java source editor
(`remove_method`, `copy_and_rename_method`, `add_javadoc`,
`annotate_method`, `deprecate_method`) from
`synthtool/languages/java.py`.

A file is modelled as the list of lines produced by repeated
`readline()` calls: each line is a `List Char` that keeps its
trailing newline character.  The Python regular expression
`"(\\s*)" + re.escape(signature) + ".*"` applied with `.match` is a
prefix test: the line must consist of a (greedily captured) run of
whitespace followed by the literal signature; `sigIndent` returns the
captured whitespace run.  Whitespace is modelled by the six ASCII
characters Python's `\s` and `str.strip` agree on for source text.
-/

namespace JavaEdit

abbrev Line := List Char

abbrev SourceFile := List Line

def strL (s : String) : Line := s.toList

/-- ASCII whitespace characters recognised by Python's `\s`,
`str.lstrip`, `str.strip`. -/
def isSpace (c : Char) : Bool :=
  c = ' ' || c = '\t' || c = '\n' || c = '\r' || c = '\x0b' || c = '\x0c'

/-- Python `str.lstrip()`. -/
def lstrip (l : Line) : Line := l.dropWhile isSpace

/-- Python `str.rstrip()`. -/
def rstrip (l : Line) : Line := (l.reverse.dropWhile isSpace).reverse

/-- Python `str.strip()`. -/
def strip (l : Line) : Line := rstrip (lstrip l)

/-- `re.compile("(\\s*)" + re.escape(signature) + ".*").match(line)`:
returns the whitespace captured by the greedy group `(\s*)` when the
line starts with whitespace followed by the literal signature, and
`none` when there is no match.  Greediness means the captured run is
the longest whitespace prefix that still lets the signature match. -/
def sigIndent (sig : Line) : Line → Option Line
  | [] => if sig.isPrefixOf ([] : Line) then some [] else none
  | c :: rest =>
    if isSpace c then
      match sigIndent sig rest with
      | some w => some (c :: w)
      | none => if sig.isPrefixOf (c :: rest) then some [] else none
    else
      if sig.isPrefixOf (c :: rest) then some [] else none

/-- `re.compile(match.group(1) + "}").match(line)`: the captured
indent characters are literal in the pattern, and `.match` is a prefix
test, so a line closes the block as soon as it starts with the indent
immediately followed by a closing brace (anything may follow). -/
def closeMatch (ind line : Line) : Bool :=
  List.isPrefixOf (ind ++ ['\x7d']) line

/-- The scanning loop of `remove_method`.  The first argument mirrors
the `leading_regex` variable: `some ind` means a block opened at a
line whose captured indent was `ind` and its closer has not been seen
yet.  Lines of the block (opening line, body, and the closing line)
are not appended to the output. -/
def removeMethodGo (sig : Line) : Option Line → SourceFile → SourceFile
  | _, [] => []
  | leading, line :: rest =>
    match sigIndent sig line with
    | some w => removeMethodGo sig (some w) rest
    | none =>
      match leading with
      | none => line :: removeMethodGo sig none rest
      | some ind =>
        if closeMatch ind line then removeMethodGo sig none rest
        else removeMethodGo sig (some ind) rest

/-- `remove_method` from `java.py` (file contents in, file contents
out; the surrounding I/O is not modelled). -/
def remove_method (sig : Line) (file : SourceFile) : SourceFile :=
  removeMethodGo sig none file

/-- One scanning step of Python `str.replace(before, after)` for a
nonempty `before`: the `Nat` argument counts characters still to be
skipped after an accepted occurrence. -/
def pyReplaceGo (bef aft : Line) : Nat → Line → Line
  | _, [] => []
  | Nat.succ k, _ :: rest => pyReplaceGo bef aft k rest
  | 0, c :: rest =>
    if !bef.isEmpty && bef.isPrefixOf (c :: rest) then
      aft ++ pyReplaceGo bef aft (bef.length - 1) rest
    else
      c :: pyReplaceGo bef aft 0 rest

/-- Python `line.replace(before, after)`: leftmost non-overlapping
replacement of every occurrence; an empty `before` inserts `after`
at every position, as Python does. -/
def pyReplace (bef aft s : Line) : Line :=
  if bef.isEmpty then aft ++ s.foldr (fun c acc => c :: (aft ++ acc)) []
  else pyReplaceGo bef aft 0 s

/-- The scanning loop of `copy_and_rename_method`.  `method` mirrors
the accumulator of the same name in the Python code: it receives the
signature line with `before` replaced by `after` and every subsequent
block line verbatim, and it is flushed (after a line containing only
`"\n"`) every time a closer is found — but it is never cleared. -/
def copyRenameGo (sig bef aft : Line) :
    Option Line → SourceFile → SourceFile → SourceFile
  | _, _, [] => []
  | leading, method, line :: rest =>
    match sigIndent sig line with
    | some w =>
      line :: copyRenameGo sig bef aft (some w)
        (method ++ [pyReplace bef aft line]) rest
    | none =>
      match leading with
      | none => line :: copyRenameGo sig bef aft none method rest
      | some ind =>
        if closeMatch ind line then
          line :: ['\n'] :: ((method ++ [line]) ++
            copyRenameGo sig bef aft none (method ++ [line]) rest)
        else
          line :: copyRenameGo sig bef aft (some ind) (method ++ [line]) rest

/-- `copy_and_rename_method` from `java.py`. -/
def copy_and_rename_method (sig bef aft : Line) (file : SourceFile) :
    SourceFile :=
  copyRenameGo sig bef aft none [] file

/-- The test `last_line.lstrip() and last_line.lstrip()[0] == "@"` of
`add_javadoc`: the line, after stripping leading whitespace, is
nonempty and starts with an at-sign. -/
def isAnnotationLine (l : Line) : Bool :=
  match lstrip l with
  | [] => false
  | c :: _ => c = '@'

/-- The `lines.pop()` walk of `add_javadoc`: pops lines from the top
of the output stack while they are annotation lines (appending them to
the running `annotations` list in pop order); returns the grown
annotations list, the first non-annotation line popped, and the rest
of the stack.  Popping an empty stack raises `IndexError` in Python,
modelled as `none`. -/
def popAnn : List Line → List Line → Option (List Line × Line × List Line)
  | _, [] => none
  | anns, top :: stack =>
    if isAnnotationLine top then popAnn (anns ++ [top]) stack
    else some (anns, top, stack)

/-- `indent = (len(line) - len(line.lstrip())) * " "`: a run of space
characters whose length is the number of leading whitespace characters
of the line (the original characters are not reused). -/
def indentOf (line : Line) : Line :=
  List.replicate (line.takeWhile isSpace).length ' '

/-- The content-formatting loop shared by both branches of
`add_javadoc`: the first content line carries the `@`-tag, subsequent
lines are continuation lines. -/
def javadocContentLines (indent tag : Line) : List Line → List Line
  | [] => []
  | cl :: cls =>
    (indent ++ strL " * @" ++ tag ++ [' '] ++ cl ++ ['\n']) ::
      cls.map (fun c => indent ++ strL " *   " ++ c ++ ['\n'])

/-- The scanning loop of `add_javadoc`.  `acc` is the `lines`
accumulator kept in reverse (head = line appended last) so that
`lines.pop()` is head access; `anns` is the `annotations` list, which
is shared across all matches of the signature (it is never cleared).
`none` models an `IndexError` escaping from `lines.pop()`. -/
def addJavadocGo (sig tag : Line) (content : List Line) :
    List Line → List Line → SourceFile → Option SourceFile
  | acc, _, [] => some acc.reverse
  | acc, anns, line :: rest =>
    match sigIndent sig line with
    | none => addJavadocGo sig tag content (line :: acc) anns rest
    | some _ =>
      match popAnn anns acc with
      | none => none
      | some (anns2, lastLine, acc2) =>
        if strip lastLine = strL "*/" then
          addJavadocGo sig tag content
            (line :: (anns2 ++ lastLine ::
              (javadocContentLines (indentOf line) tag content).reverse ++ acc2))
            anns2 rest
        else
          addJavadocGo sig tag content
            (line :: (anns2 ++ (indentOf line ++ strL " */\n") ::
              (javadocContentLines (indentOf line) tag content).reverse ++
              (indentOf line ++ strL "/**\n") :: lastLine :: acc2))
            anns2 rest

/-- `add_javadoc` from `java.py`; `none` models the `IndexError`
raised by `lines.pop()` when the walk above a matched signature runs
off the top of the file. -/
def add_javadoc (sig tag : Line) (content : List Line) (file : SourceFile) :
    Option SourceFile :=
  addJavadocGo sig tag content [] [] file

/-- `annotate_method` from `java.py`: inserts the annotation line,
indented with `indentOf`, above every line matching the signature. -/
def annotate_method (sig anno : Line) : SourceFile → SourceFile
  | [] => []
  | line :: rest =>
    match sigIndent sig line with
    | some _ =>
      (indentOf line ++ anno ++ ['\n']) :: line :: annotate_method sig anno rest
    | none => line :: annotate_method sig anno rest

/-- Line terminators recognised by Python `str.splitlines`. -/
def isLineBreak (c : Char) : Bool :=
  c = '\n' || c = '\r' || c = '\x0b' || c = '\x0c' ||
  c = '\x1c' || c = '\x1d' || c = '\x1e' || c = '\x85' ||
  c = '\u2028' || c = '\u2029'

/-- Worker for `pySplitlines`; `cur` holds the current line reversed. -/
def pySplitlinesGo (cur : Line) : Line → List Line
  | [] => if cur.isEmpty then [] else [cur.reverse]
  | '\r' :: '\n' :: rest => cur.reverse :: pySplitlinesGo [] rest
  | c :: rest =>
    if isLineBreak c then cur.reverse :: pySplitlinesGo [] rest
    else pySplitlinesGo (c :: cur) rest

/-- Python `str.splitlines()` (no trailing empty line for a trailing
terminator; `""` gives `[]`). -/
def pySplitlines (s : Line) : List Line := pySplitlinesGo [] s

/-- `deprecate_method` from `java.py`: `add_javadoc` with tag
`deprecated` on the split note, then `annotate_method` with
`@Deprecated`.  If `add_javadoc` raises, `annotate_method` never
runs. -/
def deprecate_method (sig note : Line) (file : SourceFile) :
    Option SourceFile :=
  (add_javadoc sig (strL "deprecated") (pySplitlines note) file).map
    (annotate_method sig (strL "@Deprecated"))

/-! ### Lemmas about the `remove_method` scanning loop -/

theorem removeMethodGo_pass (sig : Line) (P rest : SourceFile)
    (hP : ∀ l ∈ P, sigIndent sig l = none) :
    removeMethodGo sig none (P ++ rest) = P ++ removeMethodGo sig none rest := by
  induction P with
  | nil => simp
  | cons p P ih =>
    have hp := hP p (by simp)
    have hP2 : ∀ l ∈ P, sigIndent sig l = none := fun l hl => hP l (by simp [hl])
    simp [removeMethodGo, hp, ih hP2]

theorem removeMethodGo_skip (sig w : Line) (B rest : SourceFile)
    (hB : ∀ l ∈ B, sigIndent sig l = none ∧ closeMatch w l = false) :
    removeMethodGo sig (some w) (B ++ rest) = removeMethodGo sig (some w) rest := by
  induction B with
  | nil => simp
  | cons b B ih =>
    have hb := hB b (by simp)
    have hB2 : ∀ l ∈ B, sigIndent sig l = none ∧ closeMatch w l = false :=
      fun l hl => hB l (by simp [hl])
    simp [removeMethodGo, hb.1, hb.2, ih hB2]

theorem removeMethodGo_match (sig w : Line) (m : Line) (rest : SourceFile)
    (leading : Option Line) (hm : sigIndent sig m = some w) :
    removeMethodGo sig leading (m :: rest) = removeMethodGo sig (some w) rest := by
  simp [removeMethodGo, hm]

theorem removeMethodGo_close (sig w : Line) (c : Line) (rest : SourceFile)
    (hc : sigIndent sig c = none) (hcl : closeMatch w c = true) :
    removeMethodGo sig (some w) (c :: rest) = removeMethodGo sig none rest := by
  simp [removeMethodGo, hc, hcl]

theorem removeMethodGo_noop (sig : Line) (F : SourceFile)
    (hF : ∀ l ∈ F, sigIndent sig l = none) :
    removeMethodGo sig none F = F := by
  have h := removeMethodGo_pass sig F [] hF
  simpa [removeMethodGo] using h

/-! ### Lemmas about the `copy_and_rename_method` scanning loop -/

theorem copyRenameGo_pass (sig bef aft : Line) (method : SourceFile)
    (P rest : SourceFile) (hP : ∀ l ∈ P, sigIndent sig l = none) :
    copyRenameGo sig bef aft none method (P ++ rest)
      = P ++ copyRenameGo sig bef aft none method rest := by
  induction P with
  | nil => simp
  | cons p P ih =>
    have hp := hP p (by simp)
    have hP2 : ∀ l ∈ P, sigIndent sig l = none := fun l hl => hP l (by simp [hl])
    simp [copyRenameGo, hp, ih hP2]

theorem copyRenameGo_collect (sig bef aft w : Line) (method : SourceFile)
    (B rest : SourceFile)
    (hB : ∀ l ∈ B, sigIndent sig l = none ∧ closeMatch w l = false) :
    copyRenameGo sig bef aft (some w) method (B ++ rest)
      = B ++ copyRenameGo sig bef aft (some w) (method ++ B) rest := by
  induction B generalizing method with
  | nil => simp
  | cons b B ih =>
    have hb := hB b (by simp)
    have hB2 : ∀ l ∈ B, sigIndent sig l = none ∧ closeMatch w l = false :=
      fun l hl => hB l (by simp [hl])
    have h2 := ih (method ++ [b]) hB2
    simp only [List.append_assoc, List.singleton_append] at h2
    simp [copyRenameGo, hb.1, hb.2, h2]

theorem copyRenameGo_match (sig bef aft w : Line) (method : SourceFile)
    (m : Line) (rest : SourceFile) (leading : Option Line)
    (hm : sigIndent sig m = some w) :
    copyRenameGo sig bef aft leading method (m :: rest)
      = m :: copyRenameGo sig bef aft (some w)
          (method ++ [pyReplace bef aft m]) rest := by
  simp [copyRenameGo, hm]

theorem copyRenameGo_close (sig bef aft w : Line) (method : SourceFile)
    (c : Line) (rest : SourceFile)
    (hc : sigIndent sig c = none) (hcl : closeMatch w c = true) :
    copyRenameGo sig bef aft (some w) method (c :: rest)
      = c :: ['\n'] :: ((method ++ [c]) ++
          copyRenameGo sig bef aft none (method ++ [c]) rest) := by
  simp [copyRenameGo, hc, hcl]

theorem copyRenameGo_noop (sig bef aft : Line) (method : SourceFile)
    (F : SourceFile) (hF : ∀ l ∈ F, sigIndent sig l = none) :
    copyRenameGo sig bef aft none method F = F := by
  have h := copyRenameGo_pass sig bef aft method F [] hF
  simpa [copyRenameGo] using h

/-! ### Lemmas about `annotate_method` -/

theorem annotate_pass (sig anno : Line) (P rest : SourceFile)
    (hP : ∀ l ∈ P, sigIndent sig l = none) :
    annotate_method sig anno (P ++ rest)
      = P ++ annotate_method sig anno rest := by
  induction P with
  | nil => simp
  | cons p P ih =>
    have hp := hP p (by simp)
    have hP2 : ∀ l ∈ P, sigIndent sig l = none := fun l hl => hP l (by simp [hl])
    simp [annotate_method, hp, ih hP2]

theorem annotate_noop (sig anno : Line) (F : SourceFile)
    (hF : ∀ l ∈ F, sigIndent sig l = none) :
    annotate_method sig anno F = F := by
  have h := annotate_pass sig anno F [] hF
  simpa [annotate_method] using h

theorem annotate_single (sig anno w : Line) (P Sfx : SourceFile) (m : Line)
    (hP : ∀ l ∈ P, sigIndent sig l = none)
    (hm : sigIndent sig m = some w)
    (hS : ∀ l ∈ Sfx, sigIndent sig l = none) :
    annotate_method sig anno (P ++ m :: Sfx)
      = P ++ (indentOf m ++ anno ++ ['\n']) :: m :: Sfx := by
  rw [annotate_pass sig anno P _ hP]
  simp [annotate_method, hm, annotate_noop sig anno Sfx hS]

/-! ### Facts about `strip`, `lstrip` and annotation detection -/

theorem eq_rstrip_append (y : Line) :
    y = rstrip y ++ (y.reverse.takeWhile isSpace).reverse := by
  conv_lhs => rw [← y.reverse_reverse,
    ← List.takeWhile_append_dropWhile isSpace y.reverse]
  rw [List.reverse_append]
  rfl

theorem strip_star_not_ann (l : Line) (h : strip l = strL "*/") :
    isAnnotationLine l = false := by
  have h2 := eq_rstrip_append (lstrip l)
  rw [show rstrip (lstrip l) = strip l from rfl, h] at h2
  unfold isAnnotationLine
  rw [h2]
  rfl

theorem lstrip_replicate_space (n : Nat) (x : Line) :
    lstrip (List.replicate n ' ' ++ x) = lstrip x := by
  induction n with
  | zero => simp
  | succ n _ =>
    rw [List.replicate_succ]
    simp only [lstrip, List.cons_append, List.dropWhile_cons]
    norm_num [isSpace]

theorem strip_close_header (n : Nat) :
    strip (List.replicate n ' ' ++ strL " */\n") = strL "*/" := by
  unfold strip
  rw [lstrip_replicate_space]
  rfl

theorem close_header_not_ann (n : Nat) :
    isAnnotationLine (List.replicate n ' ' ++ strL " */\n") = false :=
  strip_star_not_ann _ (strip_close_header n)

theorem deprecated_marker_is_ann (n : Nat) :
    isAnnotationLine (List.replicate n ' ' ++ strL "@Deprecated\n") = true := by
  unfold isAnnotationLine
  rw [lstrip_replicate_space]
  rfl

/-! ### Lemmas about the `add_javadoc` scanning loop -/

theorem addJavadocGo_nil (sig tag : Line) (content : List Line)
    (acc anns : List Line) :
    addJavadocGo sig tag content acc anns [] = some acc.reverse := rfl

theorem addJavadocGo_pass (sig tag : Line) (content : List Line)
    (anns : List Line) (P : SourceFile) (acc : List Line) (rest : SourceFile)
    (hP : ∀ l ∈ P, sigIndent sig l = none) :
    addJavadocGo sig tag content acc anns (P ++ rest)
      = addJavadocGo sig tag content (P.reverse ++ acc) anns rest := by
  induction P generalizing acc with
  | nil => simp
  | cons p P ih =>
    have hp := hP p (by simp)
    have hP2 : ∀ l ∈ P, sigIndent sig l = none := fun l hl => hP l (by simp [hl])
    have h2 := ih (p :: acc) hP2
    simpa [addJavadocGo, hp] using h2

theorem popAnn_through (R : List Line) (top : Line) (stack anns : List Line)
    (hR : ∀ l ∈ R, isAnnotationLine l = true)
    (htop : isAnnotationLine top = false) :
    popAnn anns (R ++ top :: stack) = some (anns ++ R, top, stack) := by
  induction R generalizing anns with
  | nil => simp [popAnn, htop]
  | cons r R ih =>
    have hr := hR r (by simp)
    have hR2 : ∀ l ∈ R, isAnnotationLine l = true := fun l hl => hR l (by simp [hl])
    have h2 := ih (anns ++ [r]) hR2
    simpa [popAnn, hr] using h2

theorem addJavadocGo_match_exist (sig tag : Line) (content : List Line)
    (acc anns anns2 acc2 : List Line) (lastLine m : Line) (rest : SourceFile)
    (w : Line) (hm : sigIndent sig m = some w)
    (hpop : popAnn anns acc = some (anns2, lastLine, acc2))
    (hlast : strip lastLine = strL "*/") :
    addJavadocGo sig tag content acc anns (m :: rest)
      = addJavadocGo sig tag content
          (m :: (anns2 ++ lastLine ::
            (javadocContentLines (indentOf m) tag content).reverse ++ acc2))
          anns2 rest := by
  simp [addJavadocGo, hm, hpop, hlast]

theorem addJavadocGo_match_new (sig tag : Line) (content : List Line)
    (acc anns anns2 acc2 : List Line) (lastLine m : Line) (rest : SourceFile)
    (w : Line) (hm : sigIndent sig m = some w)
    (hpop : popAnn anns acc = some (anns2, lastLine, acc2))
    (hlast : strip lastLine ≠ strL "*/") :
    addJavadocGo sig tag content acc anns (m :: rest)
      = addJavadocGo sig tag content
          (m :: (anns2 ++ (indentOf m ++ strL " */\n") ::
            (javadocContentLines (indentOf m) tag content).reverse ++
            (indentOf m ++ strL "/**\n") :: lastLine :: acc2))
          anns2 rest := by
  simp [addJavadocGo, hm, hpop, hlast]

theorem add_javadoc_noop (sig tag : Line) (content : List Line)
    (F : SourceFile) (hF : ∀ l ∈ F, sigIndent sig l = none) :
    add_javadoc sig tag content F = some F := by
  unfold add_javadoc
  have h := addJavadocGo_pass sig tag content [] F [] [] hF
  simpa [addJavadocGo] using h

theorem addJavadocGo_tail (sig tag : Line) (content : List Line)
    (acc anns : List Line) (S : SourceFile)
    (hS : ∀ l ∈ S, sigIndent sig l = none) :
    addJavadocGo sig tag content acc anns S = some (acc.reverse ++ S) := by
  have h := addJavadocGo_pass sig tag content anns S acc [] hS
  simpa [addJavadocGo] using h

/-- Shape lemma: a single matched signature whose preceding line is
neither an annotation line nor the closer of a documentation comment
makes `add_javadoc` synthesize a fresh comment block directly above
the signature. -/
theorem aj_new_header (sig tag : Line) (content : List Line)
    (P Sfx : SourceFile) (b m w : Line)
    (hP : ∀ l ∈ P, sigIndent sig l = none)
    (hb1 : sigIndent sig b = none)
    (hb2 : isAnnotationLine b = false)
    (hb3 : strip b ≠ strL "*/")
    (hm : sigIndent sig m = some w)
    (hS : ∀ l ∈ Sfx, sigIndent sig l = none) :
    add_javadoc sig tag content (P ++ b :: m :: Sfx)
      = some (P ++ b :: (indentOf m ++ strL "/**\n") ::
          (javadocContentLines (indentOf m) tag content ++
            (indentOf m ++ strL " */\n") :: m :: Sfx)) := by
  unfold add_javadoc
  have hPb : ∀ l ∈ P ++ [b], sigIndent sig l = none := by
    intro l hl
    rcases List.mem_append.mp hl with h | h
    · exact hP l h
    · simp only [List.mem_singleton] at h; subst h; exact hb1
  have e1 : P ++ b :: m :: Sfx = (P ++ [b]) ++ m :: Sfx := by simp
  rw [e1, addJavadocGo_pass sig tag content [] (P ++ [b]) [] (m :: Sfx) hPb]
  have hpop : popAnn [] ((P ++ [b]).reverse ++ []) = some ([], b, P.reverse) := by
    have h := popAnn_through [] b P.reverse [] (by simp) hb2
    simpa using h
  rw [addJavadocGo_match_new sig tag content _ [] [] P.reverse b m Sfx w hm hpop hb3]
  rw [addJavadocGo_tail sig tag content _ [] Sfx hS]
  simp

/-- Shape lemma: a single matched signature preceded by a contiguous
run of annotation lines and then the closer `*/` of an existing
documentation comment makes `add_javadoc` insert the tagged content
lines immediately before the closer and re-emit the annotations, in
original order, directly above the signature. -/
theorem aj_existing_header (sig tag : Line) (content : List Line)
    (P A Sfx : SourceFile) (star m w : Line)
    (hP : ∀ l ∈ P, sigIndent sig l = none)
    (hstar1 : sigIndent sig star = none)
    (hstar2 : strip star = strL "*/")
    (hA : ∀ l ∈ A, isAnnotationLine l = true ∧ sigIndent sig l = none)
    (hm : sigIndent sig m = some w)
    (hS : ∀ l ∈ Sfx, sigIndent sig l = none) :
    add_javadoc sig tag content (P ++ star :: (A ++ m :: Sfx))
      = some (P ++ javadocContentLines (indentOf m) tag content ++
          star :: (A ++ m :: Sfx)) := by
  unfold add_javadoc
  have hPsA : ∀ l ∈ P ++ star :: A, sigIndent sig l = none := by
    intro l hl
    rcases List.mem_append.mp hl with h | h
    · exact hP l h
    · rcases List.mem_cons.mp h with h2 | h2
      · subst h2; exact hstar1
      · exact (hA l h2).2
  have e1 : P ++ star :: (A ++ m :: Sfx) = (P ++ star :: A) ++ m :: Sfx := by simp
  rw [e1, addJavadocGo_pass sig tag content [] (P ++ star :: A) [] (m :: Sfx) hPsA]
  have hR : ∀ l ∈ A.reverse, isAnnotationLine l = true := by
    intro l hl
    exact (hA l (List.mem_reverse.mp hl)).1
  have htop : isAnnotationLine star = false := strip_star_not_ann star hstar2
  have hpop : popAnn [] ((P ++ star :: A).reverse ++ [])
      = some (A.reverse, star, P.reverse) := by
    have h := popAnn_through A.reverse star P.reverse [] hR htop
    simpa using h
  rw [addJavadocGo_match_exist sig tag content _ [] A.reverse P.reverse star m Sfx w
    hm hpop hstar2]
  rw [addJavadocGo_tail sig tag content _ A.reverse Sfx hS]
  simp

/-! ### Claim C1 -/

/-- C1 counterexample.  In the file `["  sig\n", "  } else {\n", "  }\n"]`
the signature `sig` occurs on exactly one line (captured indent `"  "`),
and the third line is the first (and only) later line whose trimmed
content is exactly a closing brace at that indent, so the claim demands
that lines one through three are all removed, leaving `[]`.  The code,
whose closing test is only a prefix match for indent-plus-brace, closes
the block at the second line (`"  } else {"`) and keeps the third. -/
theorem C1_close_with_trailing_text_cex :
    List.countP (fun l => (sigIndent (strL "sig") l).isSome)
      [strL "  sig\n", strL "  \x7d else \x7b\n", strL "  \x7d\n"] = 1 ∧
    sigIndent (strL "sig") (strL "  sig\n") = some (strL "  ") ∧
    strip (strL "  \x7d\n") = strL "\x7d" ∧
    (strL "  \x7d\n").takeWhile isSpace = strL "  " ∧
    strip (strL "  \x7d else \x7b\n") ≠ strL "\x7d" ∧
    remove_method (strL "sig")
      [strL "  sig\n", strL "  \x7d else \x7b\n", strL "  \x7d\n"]
      = [strL "  \x7d\n"] ∧
    [strL "  \x7d\n"] ≠ ([] : SourceFile) := by
  decide

/-- C1 (amended): for a signature occurring on exactly one line, the
removed region runs from the matching line through the first later line
that *starts with* the captured indent immediately followed by a
closing brace (trailing content after the brace is allowed); every
other line is preserved byte-identically and in order. -/
theorem C1_remove_method_first_close (sig w : Line) (P B Sfx : SourceFile)
    (m c : Line)
    (hP : ∀ l ∈ P, sigIndent sig l = none)
    (hm : sigIndent sig m = some w)
    (hB : ∀ l ∈ B, sigIndent sig l = none ∧ closeMatch w l = false)
    (hc1 : sigIndent sig c = none) (hc2 : closeMatch w c = true)
    (hS : ∀ l ∈ Sfx, sigIndent sig l = none) :
    remove_method sig (P ++ m :: (B ++ c :: Sfx)) = P ++ Sfx := by
  unfold remove_method
  rw [removeMethodGo_pass sig P _ hP,
      removeMethodGo_match sig w m _ none hm,
      removeMethodGo_skip sig w B _ hB,
      removeMethodGo_close sig w c _ hc1 hc2,
      removeMethodGo_noop sig Sfx hS]

theorem C1_remove_method_first_close_witness :
    remove_method (strL "sig")
      ([strL "a\n"] ++ strL "  sig \x7b\n" ::
        ([strL "  body\n"] ++ strL "  \x7d\n" :: [strL "z\n"]))
      = [strL "a\n"] ++ [strL "z\n"] :=
  C1_remove_method_first_close (strL "sig") (strL "  ")
    [strL "a\n"] [strL "  body\n"] [strL "z\n"]
    (strL "  sig \x7b\n") (strL "  \x7d\n")
    (by decide) (by decide) (by decide) (by decide) (by decide) (by decide)

/-! ### Claim C2 -/

/-- C2 counterexample.  The signature occurs exactly once and the block
is properly closed, yet the produced copy only has `before → after`
substituted in its *signature* line (`method.append(line.replace(...))`
runs only in the match branch); the body line `"  main();\n"` is copied
verbatim, so the output differs from the claimed one in which every
line of the copy has `main` replaced by `foo1`. -/
theorem C2_body_not_renamed_cex :
    List.countP (fun l => (sigIndent (strL "void main()") l).isSome)
      [strL "void main() \x7b\n", strL "  main();\n", strL "\x7d\n"] = 1 ∧
    copy_and_rename_method (strL "void main()") (strL "main") (strL "foo1")
      [strL "void main() \x7b\n", strL "  main();\n", strL "\x7d\n"]
      = [strL "void main() \x7b\n", strL "  main();\n", strL "\x7d\n", strL "\n",
         strL "void foo1() \x7b\n", strL "  main();\n", strL "\x7d\n"] ∧
    [strL "void main() \x7b\n", strL "  main();\n", strL "\x7d\n", strL "\n"] ++
      List.map (pyReplace (strL "main") (strL "foo1"))
        [strL "void main() \x7b\n", strL "  main();\n", strL "\x7d\n"]
      ≠ copy_and_rename_method (strL "void main()") (strL "main") (strL "foo1")
          [strL "void main() \x7b\n", strL "  main();\n", strL "\x7d\n"] := by
  decide

/-- C2 (amended): one call appends, after the original block and a
single `"\n"` separator line, a copy whose signature line has every
occurrence of `before` replaced by `after` while the body and closing
lines are copied verbatim; the original block is unmodified in
place. -/
theorem C2_copy_renames_signature_line_only (sig bef aft w : Line)
    (P B Sfx : SourceFile) (m c : Line)
    (hP : ∀ l ∈ P, sigIndent sig l = none)
    (hm : sigIndent sig m = some w)
    (hB : ∀ l ∈ B, sigIndent sig l = none ∧ closeMatch w l = false)
    (hc1 : sigIndent sig c = none) (hc2 : closeMatch w c = true)
    (hS : ∀ l ∈ Sfx, sigIndent sig l = none) :
    copy_and_rename_method sig bef aft (P ++ m :: (B ++ c :: Sfx))
      = P ++ m :: (B ++ c :: ['\n'] ::
          pyReplace bef aft m :: (B ++ c :: Sfx)) := by
  unfold copy_and_rename_method
  rw [copyRenameGo_pass sig bef aft [] P _ hP,
      copyRenameGo_match sig bef aft w [] m _ none hm,
      copyRenameGo_collect sig bef aft w ([] ++ [pyReplace bef aft m]) B _ hB,
      copyRenameGo_close sig bef aft w _ c Sfx hc1 hc2,
      copyRenameGo_noop sig bef aft _ Sfx hS]
  simp

theorem C2_copy_renames_signature_line_only_witness :
    copy_and_rename_method (strL "void main()") (strL "main") (strL "foo1")
      ([strL "class A \x7b\n"] ++ strL "  void main() \x7b\n" ::
        ([strL "    main();\n"] ++ strL "  \x7d\n" :: [strL "\x7d\n"]))
      = [strL "class A \x7b\n"] ++ strL "  void main() \x7b\n" ::
          ([strL "    main();\n"] ++ strL "  \x7d\n" :: ['\n'] ::
            pyReplace (strL "main") (strL "foo1") (strL "  void main() \x7b\n") ::
            ([strL "    main();\n"] ++ strL "  \x7d\n" :: [strL "\x7d\n"])) :=
  C2_copy_renames_signature_line_only (strL "void main()") (strL "main")
    (strL "foo1") (strL "  ")
    [strL "class A \x7b\n"] [strL "    main();\n"] [strL "\x7d\n"]
    (strL "  void main() \x7b\n") (strL "  \x7d\n")
    (by decide) (by decide) (by decide) (by decide) (by decide) (by decide)

/-! ### Claim C3 -/

/-- C3: when the signature matches no line, all five editor operations
rewrite the file with exactly its input content; no error is surfaced
(for the two operations that can raise, the result is `some` of the
unchanged file). -/
theorem C3_absent_signature_noop (sig bef aft tag anno note : Line)
    (content : List Line) (F : SourceFile)
    (hF : ∀ l ∈ F, sigIndent sig l = none) :
    remove_method sig F = F ∧
    copy_and_rename_method sig bef aft F = F ∧
    add_javadoc sig tag content F = some F ∧
    annotate_method sig anno F = F ∧
    deprecate_method sig note F = some F := by
  refine ⟨removeMethodGo_noop sig F hF, copyRenameGo_noop sig bef aft [] F hF,
    add_javadoc_noop sig tag content F hF, annotate_noop sig anno F hF, ?_⟩
  unfold deprecate_method
  rw [add_javadoc_noop sig (strL "deprecated") (pySplitlines note) F hF]
  simp [annotate_noop sig (strL "@Deprecated") F hF]

theorem C3_absent_signature_noop_witness :
    remove_method (strL "zzz") [strL "class A \x7b\n", strL "\x7d\n"]
        = [strL "class A \x7b\n", strL "\x7d\n"] ∧
    copy_and_rename_method (strL "zzz") (strL "a") (strL "b")
        [strL "class A \x7b\n", strL "\x7d\n"]
        = [strL "class A \x7b\n", strL "\x7d\n"] ∧
    add_javadoc (strL "zzz") (strL "deprecated") [strL "x"]
        [strL "class A \x7b\n", strL "\x7d\n"]
        = some [strL "class A \x7b\n", strL "\x7d\n"] ∧
    annotate_method (strL "zzz") (strL "@Deprecated")
        [strL "class A \x7b\n", strL "\x7d\n"]
        = [strL "class A \x7b\n", strL "\x7d\n"] ∧
    deprecate_method (strL "zzz") (strL "x")
        [strL "class A \x7b\n", strL "\x7d\n"]
        = some [strL "class A \x7b\n", strL "\x7d\n"] :=
  C3_absent_signature_noop (strL "zzz") (strL "a") (strL "b")
    (strL "deprecated") (strL "@Deprecated") (strL "x") [strL "x"]
    [strL "class A \x7b\n", strL "\x7d\n"] (by decide)

/-! ### Claim C4 -/

/-- C4 counterexample.  The signature matches the first line, no later
line closes the block, and `remove_method` outputs `[]`: every line
from the match to end-of-file is dropped, not retained, contradicting
the claim that all lines of the file are preserved verbatim. -/
theorem C4_unterminated_drops_tail_cex :
    sigIndent (strL "sig") (strL "  sig \x7b\n") = some (strL "  ") ∧
    closeMatch (strL "  ") (strL "  body\n") = false ∧
    remove_method (strL "sig") [strL "  sig \x7b\n", strL "  body\n"] = [] ∧
    ([] : SourceFile) ≠ [strL "  sig \x7b\n", strL "  body\n"] := by
  decide

/-- C4 (amended): on an unterminated block the two locator-based
operations diverge: `remove_method` keeps only the lines *before* the
match and drops the matching line and everything after it to
end-of-file, while `copy_and_rename_method` keeps the whole file
unchanged (its pending copy is never flushed). -/
theorem C4_unterminated_behavior (sig bef aft w : Line) (P B : SourceFile)
    (m : Line)
    (hP : ∀ l ∈ P, sigIndent sig l = none)
    (hm : sigIndent sig m = some w)
    (hB : ∀ l ∈ B, sigIndent sig l = none ∧ closeMatch w l = false) :
    remove_method sig (P ++ m :: B) = P ∧
    copy_and_rename_method sig bef aft (P ++ m :: B) = P ++ m :: B := by
  constructor
  · unfold remove_method
    rw [removeMethodGo_pass sig P _ hP, removeMethodGo_match sig w m _ none hm]
    have h := removeMethodGo_skip sig w B [] hB
    simp only [List.append_nil] at h
    rw [h]
    simp [removeMethodGo]
  · unfold copy_and_rename_method
    rw [copyRenameGo_pass sig bef aft [] P _ hP,
        copyRenameGo_match sig bef aft w [] m _ none hm]
    have h := copyRenameGo_collect sig bef aft w ([] ++ [pyReplace bef aft m]) B [] hB
    simp only [List.append_nil] at h
    rw [h]
    simp [copyRenameGo]

theorem C4_unterminated_behavior_witness :
    remove_method (strL "sig")
        ([strL "a\n"] ++ strL "  sig \x7b\n" :: [strL "  body\n"])
      = [strL "a\n"] ∧
    copy_and_rename_method (strL "sig") (strL "sig") (strL "foo")
        ([strL "a\n"] ++ strL "  sig \x7b\n" :: [strL "  body\n"])
      = [strL "a\n"] ++ strL "  sig \x7b\n" :: [strL "  body\n"] :=
  C4_unterminated_behavior (strL "sig") (strL "sig") (strL "foo") (strL "  ")
    [strL "a\n"] [strL "  body\n"] (strL "  sig \x7b\n")
    (by decide) (by decide) (by decide)

/-! ### Claim C5 -/

/-- C5 counterexample.  When the matched signature line is the first
line of the file, `add_javadoc` executes `lines.pop()` on an empty
list: the `IndexError` (modelled as `none`) escapes, and so does the
composite `deprecate_method` — a structural-matching outcome that is
not absorbed inside the editor. -/
theorem C5_first_line_crash_cex :
    sigIndent (strL "void m()") (strL "void m() \x7b\n") = some [] ∧
    add_javadoc (strL "void m()") (strL "deprecated") [strL "x"]
      [strL "void m() \x7b\n"] = none ∧
    deprecate_method (strL "void m()") (strL "x")
      [strL "void m() \x7b\n"] = none := by
  decide

/-- C5 (amended): `add_javadoc` raises (modelled as `none`) whenever
the first line of the file matches the signature, because the walk
above the match pops from an empty output buffer; such failures are
not absorbed inside the editor. -/
theorem C5_add_javadoc_first_line_raises (sig tag m w : Line)
    (content : List Line) (rest : SourceFile)
    (hm : sigIndent sig m = some w) :
    add_javadoc sig tag content (m :: rest) = none := by
  unfold add_javadoc
  simp [addJavadocGo, hm, popAnn]

theorem C5_add_javadoc_first_line_raises_witness :
    add_javadoc (strL "void run()") (strL "deprecated") [strL "x"]
      (strL "void run() \x7b\n" :: [strL "\x7d\n"]) = none :=
  C5_add_javadoc_first_line_raises (strL "void run()") (strL "deprecated")
    (strL "void run() \x7b\n") [] [strL "x"] [strL "\x7d\n"] (by decide)

/-! ### Claim C6 -/

/-- C6 counterexample.  The signature matches two lines, each opening
its own well-formed block.  The claim says only the first block is
acted on: `remove_method` should leave the second block
`["sig() {", "}"]`, and `copy_and_rename_method` should produce
exactly one copy.  Instead the signature test runs on every line:
`remove_method` removes both blocks (output `[]`), and
`copy_and_rename_method` flushes its never-cleared buffer at both
closers, emitting a second, compounded insertion. -/
theorem C6_multi_match_cex :
    List.countP (fun l => (sigIndent (strL "sig()") l).isSome)
      [strL "sig() \x7b\n", strL "\x7d\n", strL "sig() \x7b\n", strL "\x7d\n"] = 2 ∧
    remove_method (strL "sig()")
      [strL "sig() \x7b\n", strL "\x7d\n", strL "sig() \x7b\n", strL "\x7d\n"] = [] ∧
    ([] : SourceFile) ≠ [strL "sig() \x7b\n", strL "\x7d\n"] ∧
    copy_and_rename_method (strL "sig()") (strL "sig") (strL "foo")
      [strL "sig() \x7b\n", strL "\x7d\n", strL "sig() \x7b\n", strL "\x7d\n"]
      = [strL "sig() \x7b\n", strL "\x7d\n", strL "\n",
         strL "foo() \x7b\n", strL "\x7d\n",
         strL "sig() \x7b\n", strL "\x7d\n", strL "\n",
         strL "foo() \x7b\n", strL "\x7d\n",
         strL "foo() \x7b\n", strL "\x7d\n"] := by
  decide

/-- C6 (amended): both operations re-match every occurrence of the
signature.  With two disjoint matched blocks, `remove_method` removes
both; `copy_and_rename_method` appends, at each closer, a separator
line and its entire accumulated buffer — which at the second closer
still contains the first block's copy, so the second insertion
consists of the first copy followed by the renamed second block. -/
theorem C6_every_match_processed (sig bef aft w1 w2 : Line)
    (P B1 Q B2 Sfx : SourceFile) (m1 c1 m2 c2 : Line)
    (hP : ∀ l ∈ P, sigIndent sig l = none)
    (hm1 : sigIndent sig m1 = some w1)
    (hB1 : ∀ l ∈ B1, sigIndent sig l = none ∧ closeMatch w1 l = false)
    (hc11 : sigIndent sig c1 = none) (hc12 : closeMatch w1 c1 = true)
    (hQ : ∀ l ∈ Q, sigIndent sig l = none)
    (hm2 : sigIndent sig m2 = some w2)
    (hB2 : ∀ l ∈ B2, sigIndent sig l = none ∧ closeMatch w2 l = false)
    (hc21 : sigIndent sig c2 = none) (hc22 : closeMatch w2 c2 = true)
    (hS : ∀ l ∈ Sfx, sigIndent sig l = none) :
    remove_method sig
        (P ++ m1 :: (B1 ++ c1 :: (Q ++ m2 :: (B2 ++ c2 :: Sfx))))
      = P ++ (Q ++ Sfx) ∧
    copy_and_rename_method sig bef aft
        (P ++ m1 :: (B1 ++ c1 :: (Q ++ m2 :: (B2 ++ c2 :: Sfx))))
      = P ++ m1 :: (B1 ++ c1 :: ['\n'] ::
          pyReplace bef aft m1 :: (B1 ++ c1 ::
            (Q ++ m2 :: (B2 ++ c2 :: ['\n'] ::
              pyReplace bef aft m1 :: (B1 ++ c1 ::
                pyReplace bef aft m2 :: (B2 ++ c2 :: Sfx)))))) := by
  constructor
  · unfold remove_method
    rw [removeMethodGo_pass sig P _ hP,
        removeMethodGo_match sig w1 m1 _ none hm1,
        removeMethodGo_skip sig w1 B1 _ hB1,
        removeMethodGo_close sig w1 c1 _ hc11 hc12,
        removeMethodGo_pass sig Q _ hQ,
        removeMethodGo_match sig w2 m2 _ none hm2,
        removeMethodGo_skip sig w2 B2 _ hB2,
        removeMethodGo_close sig w2 c2 _ hc21 hc22,
        removeMethodGo_noop sig Sfx hS]
  · unfold copy_and_rename_method
    rw [copyRenameGo_pass sig bef aft [] P _ hP,
        copyRenameGo_match sig bef aft w1 [] m1 _ none hm1,
        copyRenameGo_collect sig bef aft w1 _ B1 _ hB1,
        copyRenameGo_close sig bef aft w1 _ c1 _ hc11 hc12,
        copyRenameGo_pass sig bef aft _ Q _ hQ,
        copyRenameGo_match sig bef aft w2 _ m2 _ none hm2,
        copyRenameGo_collect sig bef aft w2 _ B2 _ hB2,
        copyRenameGo_close sig bef aft w2 _ c2 _ hc21 hc22,
        copyRenameGo_noop sig bef aft _ Sfx hS]
    simp

theorem C6_every_match_processed_witness :
    remove_method (strL "sig()")
        ([strL "a\n"] ++ strL "sig() \x7b\n" :: ([] ++ strL "\x7d\n" ::
          ([strL "q\n"] ++ strL "sig() \x7b\n" :: ([] ++ strL "\x7d\n" :: [strL "z\n"]))))
      = [strL "a\n"] ++ ([strL "q\n"] ++ [strL "z\n"]) ∧
    copy_and_rename_method (strL "sig()") (strL "sig") (strL "foo")
        ([strL "a\n"] ++ strL "sig() \x7b\n" :: ([] ++ strL "\x7d\n" ::
          ([strL "q\n"] ++ strL "sig() \x7b\n" :: ([] ++ strL "\x7d\n" :: [strL "z\n"]))))
      = [strL "a\n"] ++ strL "sig() \x7b\n" :: ([] ++ strL "\x7d\n" :: ['\n'] ::
          pyReplace (strL "sig") (strL "foo") (strL "sig() \x7b\n") :: ([] ++ strL "\x7d\n" ::
            ([strL "q\n"] ++ strL "sig() \x7b\n" :: ([] ++ strL "\x7d\n" :: ['\n'] ::
              pyReplace (strL "sig") (strL "foo") (strL "sig() \x7b\n") :: ([] ++ strL "\x7d\n" ::
                pyReplace (strL "sig") (strL "foo") (strL "sig() \x7b\n") ::
                  ([] ++ strL "\x7d\n" :: [strL "z\n"]))))))  :=
  C6_every_match_processed (strL "sig()") (strL "sig") (strL "foo") [] []
    [strL "a\n"] [] [strL "q\n"] [] [strL "z\n"]
    (strL "sig() \x7b\n") (strL "\x7d\n") (strL "sig() \x7b\n") (strL "\x7d\n")
    (by decide) (by decide) (by decide) (by decide) (by decide) (by decide)
    (by decide) (by decide) (by decide) (by decide) (by decide)

/-! ### Claim C7 -/

/-- C7: when the matched signature line is preceded (above a
contiguous run of annotation lines) by a line whose trimmed content is
`*/`, `add_javadoc` inserts the tagged content lines immediately
before that closer, introduces no new comment-open or comment-close
markers (the only lines added are the tagged content lines), and
re-emits the collected annotation lines in their original relative
order directly above the signature line. -/
theorem C7_add_javadoc_extends_existing_header (sig tag : Line)
    (content : List Line) (P A Sfx : SourceFile) (star m w : Line)
    (hP : ∀ l ∈ P, sigIndent sig l = none)
    (hstar1 : sigIndent sig star = none)
    (hstar2 : strip star = strL "*/")
    (hA : ∀ l ∈ A, isAnnotationLine l = true ∧ sigIndent sig l = none)
    (hm : sigIndent sig m = some w)
    (hS : ∀ l ∈ Sfx, sigIndent sig l = none) :
    add_javadoc sig tag content (P ++ star :: (A ++ m :: Sfx))
      = some (P ++ javadocContentLines (indentOf m) tag content ++
          star :: (A ++ m :: Sfx)) :=
  aj_existing_header sig tag content P A Sfx star m w hP hstar1 hstar2 hA hm hS

theorem C7_add_javadoc_extends_existing_header_witness :
    add_javadoc (strL "void m()") (strL "deprecated")
      [strL "use foo", strL "second"]
      ([strL "  /**\n", strL "   * doc\n"] ++ strL "   */\n" ::
        ([strL "  @Override\n"] ++ strL "  void m() \x7b\n" :: [strL "  \x7d\n"]))
      = some ([strL "  /**\n", strL "   * doc\n"] ++
          javadocContentLines (indentOf (strL "  void m() \x7b\n"))
            (strL "deprecated") [strL "use foo", strL "second"] ++
          strL "   */\n" ::
            ([strL "  @Override\n"] ++ strL "  void m() \x7b\n" ::
              [strL "  \x7d\n"])) :=
  C7_add_javadoc_extends_existing_header (strL "void m()") (strL "deprecated")
    [strL "use foo", strL "second"]
    [strL "  /**\n", strL "   * doc\n"] [strL "  @Override\n"] [strL "  \x7d\n"]
    (strL "   */\n") (strL "  void m() \x7b\n") (strL "  ")
    (by decide) (by decide) (by decide) (by decide) (by decide) (by decide)

/-! ### Claim C8 -/

/-- C8 counterexample.  The matched line is indented with a single tab
(`W = "\t"`), but the annotation line inserted by `annotate_method`
begins with a single *space*: `indent` is computed as
`(len(line) - len(line.lstrip())) * " "`, a count of spaces, not the
captured whitespace characters. -/
theorem C8_tab_indent_cex :
    (strL "\tm()\n").takeWhile isSpace = ['\t'] ∧
    annotate_method (strL "m()") (strL "@Deprecated") [strL "\tm()\n"]
      = [strL " @Deprecated\n", strL "\tm()\n"] ∧
    ¬ List.isPrefixOf ['\t'] (strL " @Deprecated\n") := by
  decide

/-- C8 (amended): every line inserted by `annotate_method` and
`add_javadoc` begins with `List.replicate n ' '` where `n` is the
*number* of leading whitespace characters of the matched line — spaces
by count, not the captured characters (for a space-only indent the two
coincide). -/
theorem C8_indent_is_space_count (sig anno tag w w2 : Line)
    (content : List Line) (P Sfx P2 Sfx2 : SourceFile) (m b m2 : Line)
    (hP : ∀ l ∈ P, sigIndent sig l = none)
    (hm : sigIndent sig m = some w)
    (hS : ∀ l ∈ Sfx, sigIndent sig l = none)
    (hP2 : ∀ l ∈ P2, sigIndent sig l = none)
    (hb1 : sigIndent sig b = none)
    (hb2 : isAnnotationLine b = false)
    (hb3 : strip b ≠ strL "*/")
    (hm2 : sigIndent sig m2 = some w2)
    (hS2 : ∀ l ∈ Sfx2, sigIndent sig l = none) :
    annotate_method sig anno (P ++ m :: Sfx)
      = P ++ (List.replicate (m.takeWhile isSpace).length ' ' ++
          anno ++ ['\n']) :: m :: Sfx ∧
    add_javadoc sig tag content (P2 ++ b :: m2 :: Sfx2)
      = some (P2 ++ b ::
          (List.replicate (m2.takeWhile isSpace).length ' ' ++ strL "/**\n") ::
          (javadocContentLines
              (List.replicate (m2.takeWhile isSpace).length ' ') tag content ++
            (List.replicate (m2.takeWhile isSpace).length ' ' ++ strL " */\n") ::
            m2 :: Sfx2)) := by
  constructor
  · have h := annotate_single sig anno w P Sfx m hP hm hS
    simpa [indentOf] using h
  · have h := aj_new_header sig tag content P2 Sfx2 b m2 w2 hP2 hb1 hb2 hb3 hm2 hS2
    simpa [indentOf] using h

theorem C8_indent_is_space_count_witness :
    annotate_method (strL "void m()") (strL "@Deprecated")
        ([strL "class A \x7b\n"] ++ strL "\tvoid m() \x7b\n" :: [strL "\t\x7d\n"])
      = [strL "class A \x7b\n"] ++
          (List.replicate ((strL "\tvoid m() \x7b\n").takeWhile isSpace).length ' ' ++
            strL "@Deprecated" ++ ['\n']) :: strL "\tvoid m() \x7b\n" ::
          [strL "\t\x7d\n"] ∧
    add_javadoc (strL "void m()") (strL "deprecated") [strL "use foo"]
        ([] ++ strL "class A \x7b\n" :: strL "\tvoid m() \x7b\n" :: [strL "\t\x7d\n"])
      = some ([] ++ strL "class A \x7b\n" ::
          (List.replicate ((strL "\tvoid m() \x7b\n").takeWhile isSpace).length ' ' ++
            strL "/**\n") ::
          (javadocContentLines
              (List.replicate ((strL "\tvoid m() \x7b\n").takeWhile isSpace).length ' ')
              (strL "deprecated") [strL "use foo"] ++
            (List.replicate ((strL "\tvoid m() \x7b\n").takeWhile isSpace).length ' ' ++
              strL " */\n") :: strL "\tvoid m() \x7b\n" :: [strL "\t\x7d\n"])) :=
  C8_indent_is_space_count (strL "void m()") (strL "@Deprecated")
    (strL "deprecated") ['\t'] ['\t'] [strL "use foo"]
    [strL "class A \x7b\n"] [strL "\t\x7d\n"] [] [strL "\t\x7d\n"]
    (strL "\tvoid m() \x7b\n") (strL "class A \x7b\n") (strL "\tvoid m() \x7b\n")
    (by decide) (by decide) (by decide) (by decide) (by decide) (by decide)
    (by decide) (by decide) (by decide)

/-! ### Claim C9 -/

theorem strip_close_of_indent (m : Line) :
    strip (indentOf m ++ strL " */\n") = strL "*/" := by
  simpa [indentOf] using strip_close_header (m.takeWhile isSpace).length

theorem marker_is_ann_of_indent (m : Line) :
    isAnnotationLine (indentOf m ++ strL "@Deprecated\n") = true := by
  simpa [indentOf] using
    deprecated_marker_is_ann (m.takeWhile isSpace).length

theorem deprecated_append_newline :
    strL "@Deprecated" ++ ['\n'] = strL "@Deprecated\n" := rfl

/-- C9: on a file with the signature present, a preceding
non-annotation, non-comment-closer line, and a well-formed
surrounding, one call to `deprecate_method` adds exactly one tagged
`deprecated` documentation note (a freshly synthesized comment block)
and exactly one `@Deprecated` marker line; a second call with the same
arguments duplicates both — the tagged content lines appear twice
inside the comment and the marker line appears twice above the
signature.  The composite operation is not idempotent. -/
theorem C9_deprecate_not_idempotent (sig note w : Line)
    (P Sfx : SourceFile) (b m : Line)
    (hP : ∀ l ∈ P, sigIndent sig l = none)
    (hb1 : sigIndent sig b = none)
    (hb2 : isAnnotationLine b = false)
    (hb3 : strip b ≠ strL "*/")
    (hm : sigIndent sig m = some w)
    (hS : ∀ l ∈ Sfx, sigIndent sig l = none)
    (hcl : ∀ l ∈ javadocContentLines (indentOf m) (strL "deprecated")
      (pySplitlines note), sigIndent sig l = none)
    (hO : sigIndent sig (indentOf m ++ strL "/**\n") = none)
    (hC : sigIndent sig (indentOf m ++ strL " */\n") = none)
    (hD : sigIndent sig (indentOf m ++ strL "@Deprecated\n") = none) :
    deprecate_method sig note (P ++ b :: m :: Sfx)
      = some (P ++ b :: (indentOf m ++ strL "/**\n") ::
          (javadocContentLines (indentOf m) (strL "deprecated")
              (pySplitlines note) ++
            (indentOf m ++ strL " */\n") ::
            (indentOf m ++ strL "@Deprecated\n") :: m :: Sfx)) ∧
    deprecate_method sig note
        (P ++ b :: (indentOf m ++ strL "/**\n") ::
          (javadocContentLines (indentOf m) (strL "deprecated")
              (pySplitlines note) ++
            (indentOf m ++ strL " */\n") ::
            (indentOf m ++ strL "@Deprecated\n") :: m :: Sfx))
      = some (P ++ b :: (indentOf m ++ strL "/**\n") ::
          (javadocContentLines (indentOf m) (strL "deprecated")
              (pySplitlines note) ++
            (javadocContentLines (indentOf m) (strL "deprecated")
                (pySplitlines note) ++
              (indentOf m ++ strL " */\n") ::
              (indentOf m ++ strL "@Deprecated\n") ::
              (indentOf m ++ strL "@Deprecated\n") :: m :: Sfx))) := by
  constructor
  · unfold deprecate_method
    rw [aj_new_header sig (strL "deprecated") (pySplitlines note) P Sfx b m w
      hP hb1 hb2 hb3 hm hS]
    have hP1 : ∀ l ∈ P ++ b :: (indentOf m ++ strL "/**\n") ::
        (javadocContentLines (indentOf m) (strL "deprecated")
          (pySplitlines note) ++ [indentOf m ++ strL " */\n"]),
        sigIndent sig l = none := by
      intro l hl
      simp only [List.mem_append, List.mem_cons, List.mem_singleton,
        List.not_mem_nil, or_false] at hl
      rcases hl with h | h | h | h | h
      · exact hP l h
      · subst h; exact hb1
      · subst h; exact hO
      · exact hcl l h
      · subst h; exact hC
    have e : P ++ b :: (indentOf m ++ strL "/**\n") ::
        (javadocContentLines (indentOf m) (strL "deprecated")
            (pySplitlines note) ++
          (indentOf m ++ strL " */\n") :: m :: Sfx)
        = (P ++ b :: (indentOf m ++ strL "/**\n") ::
            (javadocContentLines (indentOf m) (strL "deprecated")
              (pySplitlines note) ++ [indentOf m ++ strL " */\n"])) ++
          m :: Sfx := by
      simp
    rw [e]
    simp only [Option.map_some']
    rw [annotate_single sig (strL "@Deprecated") w _ Sfx m hP1 hm hS]
    simp [deprecated_append_newline]
  · unfold deprecate_method
    have e2 : P ++ b :: (indentOf m ++ strL "/**\n") ::
        (javadocContentLines (indentOf m) (strL "deprecated")
            (pySplitlines note) ++
          (indentOf m ++ strL " */\n") ::
          (indentOf m ++ strL "@Deprecated\n") :: m :: Sfx)
        = (P ++ b :: (indentOf m ++ strL "/**\n") ::
            javadocContentLines (indentOf m) (strL "deprecated")
              (pySplitlines note)) ++
          (indentOf m ++ strL " */\n") ::
          ([indentOf m ++ strL "@Deprecated\n"] ++ m :: Sfx) := by
      simp
    have hP2 : ∀ l ∈ P ++ b :: (indentOf m ++ strL "/**\n") ::
        javadocContentLines (indentOf m) (strL "deprecated")
          (pySplitlines note),
        sigIndent sig l = none := by
      intro l hl
      simp only [List.mem_append, List.mem_cons] at hl
      rcases hl with h | h | h | h
      · exact hP l h
      · subst h; exact hb1
      · subst h; exact hO
      · exact hcl l h
    have hA2 : ∀ l ∈ [indentOf m ++ strL "@Deprecated\n"],
        isAnnotationLine l = true ∧ sigIndent sig l = none := by
      intro l hl
      simp only [List.mem_singleton] at hl
      subst hl
      exact ⟨marker_is_ann_of_indent m, hD⟩
    rw [e2, aj_existing_header sig (strL "deprecated") (pySplitlines note)
      _ _ Sfx _ m w hP2 hC (strip_close_of_indent m) hA2 hm hS]
    have hP3 : ∀ l ∈ (P ++ b :: (indentOf m ++ strL "/**\n") ::
        javadocContentLines (indentOf m) (strL "deprecated")
          (pySplitlines note)) ++
        javadocContentLines (indentOf m) (strL "deprecated")
          (pySplitlines note) ++
        (indentOf m ++ strL " */\n") :: [indentOf m ++ strL "@Deprecated\n"],
        sigIndent sig l = none := by
      intro l hl
      simp only [List.mem_append, List.mem_cons, List.mem_singleton,
        List.not_mem_nil, or_false] at hl
      rcases hl with ((h | h | h | h) | h) | h | h
      · exact hP l h
      · subst h; exact hb1
      · subst h; exact hO
      · exact hcl l h
      · exact hcl l h
      · subst h; exact hC
      · subst h; exact hD
    have e3 : (P ++ b :: (indentOf m ++ strL "/**\n") ::
        javadocContentLines (indentOf m) (strL "deprecated")
          (pySplitlines note)) ++
        javadocContentLines (indentOf m) (strL "deprecated")
          (pySplitlines note) ++
        (indentOf m ++ strL " */\n") ::
        ([indentOf m ++ strL "@Deprecated\n"] ++ m :: Sfx)
        = ((P ++ b :: (indentOf m ++ strL "/**\n") ::
            javadocContentLines (indentOf m) (strL "deprecated")
              (pySplitlines note)) ++
          javadocContentLines (indentOf m) (strL "deprecated")
            (pySplitlines note) ++
          (indentOf m ++ strL " */\n") :: [indentOf m ++ strL "@Deprecated\n"]) ++
          m :: Sfx := by
      simp
    rw [e3]
    simp only [Option.map_some']
    rw [annotate_single sig (strL "@Deprecated") w _ Sfx m hP3 hm hS]
    simp [deprecated_append_newline]

theorem C9_deprecate_not_idempotent_witness :
    deprecate_method (strL "void main()") (strL "use foo instead")
        [strL "class A \x7b\n", strL "  void main() \x7b\n",
         strL "  \x7d\n", strL "\x7d\n"]
      = some [strL "class A \x7b\n", strL "  /**\n",
          strL "   * @deprecated use foo instead\n", strL "   */\n",
          strL "  @Deprecated\n", strL "  void main() \x7b\n",
          strL "  \x7d\n", strL "\x7d\n"] ∧
    deprecate_method (strL "void main()") (strL "use foo instead")
        [strL "class A \x7b\n", strL "  /**\n",
         strL "   * @deprecated use foo instead\n", strL "   */\n",
         strL "  @Deprecated\n", strL "  void main() \x7b\n",
         strL "  \x7d\n", strL "\x7d\n"]
      = some [strL "class A \x7b\n", strL "  /**\n",
          strL "   * @deprecated use foo instead\n",
          strL "   * @deprecated use foo instead\n", strL "   */\n",
          strL "  @Deprecated\n", strL "  @Deprecated\n",
          strL "  void main() \x7b\n", strL "  \x7d\n", strL "\x7d\n"] :=
  C9_deprecate_not_idempotent (strL "void main()") (strL "use foo instead")
    (strL "  ") [] [strL "  \x7d\n", strL "\x7d\n"]
    (strL "class A \x7b\n") (strL "  void main() \x7b\n")
    (by decide) (by decide) (by decide) (by decide) (by decide) (by decide)
    (by decide) (by decide) (by decide) (by decide)

/-! ### Claim C10 -/

/-- C10: the `annotations` lookback buffer of `add_javadoc` is shared
across matches and never cleared.  On a file with two matched
signatures, each carrying its own annotation line, the annotation line
`a1` collected above the first match is re-emitted again above the
second matching line, in addition to the second line's own annotation
`a2` (the run above `m2` is `a2, a1`). -/
theorem C10_annotation_buffer_not_cleared (sig tag : Line)
    (content : List Line) (b1 a1 m1 b2 a2 m2 w1 w2 : Line)
    (hb1nm : sigIndent sig b1 = none)
    (hb1na : isAnnotationLine b1 = false)
    (hb1ns : strip b1 ≠ strL "*/")
    (ha1an : isAnnotationLine a1 = true)
    (ha1nm : sigIndent sig a1 = none)
    (hm1 : sigIndent sig m1 = some w1)
    (hb2nm : sigIndent sig b2 = none)
    (hb2na : isAnnotationLine b2 = false)
    (hb2ns : strip b2 ≠ strL "*/")
    (ha2an : isAnnotationLine a2 = true)
    (ha2nm : sigIndent sig a2 = none)
    (hm2 : sigIndent sig m2 = some w2) :
    add_javadoc sig tag content [b1, a1, m1, b2, a2, m2]
      = some (b1 :: (indentOf m1 ++ strL "/**\n") ::
          (javadocContentLines (indentOf m1) tag content ++
            (indentOf m1 ++ strL " */\n") :: a1 :: m1 ::
            b2 :: (indentOf m2 ++ strL "/**\n") ::
            (javadocContentLines (indentOf m2) tag content ++
              (indentOf m2 ++ strL " */\n") :: a2 :: a1 :: m2 :: []))) := by
  unfold add_javadoc
  simp [addJavadocGo, popAnn, hb1nm, ha1nm, hm1, hb2nm, ha2nm, hm2,
    ha1an, ha2an, hb1na, hb2na, hb1ns, hb2ns]

theorem C10_annotation_buffer_not_cleared_witness :
    add_javadoc (strL "void m") (strL "deprecated") [strL "note"]
        [strL "class A \x7b\n", strL "  @Anno1\n", strL "  void m1() \x7b\n",
         strL "  x\n", strL "  @Anno2\n", strL "  void m2() \x7b\n"]
      = some (strL "class A \x7b\n" ::
          (indentOf (strL "  void m1() \x7b\n") ++ strL "/**\n") ::
          (javadocContentLines (indentOf (strL "  void m1() \x7b\n"))
              (strL "deprecated") [strL "note"] ++
            (indentOf (strL "  void m1() \x7b\n") ++ strL " */\n") ::
            strL "  @Anno1\n" :: strL "  void m1() \x7b\n" ::
            strL "  x\n" ::
            (indentOf (strL "  void m2() \x7b\n") ++ strL "/**\n") ::
            (javadocContentLines (indentOf (strL "  void m2() \x7b\n"))
                (strL "deprecated") [strL "note"] ++
              (indentOf (strL "  void m2() \x7b\n") ++ strL " */\n") ::
              strL "  @Anno2\n" :: strL "  @Anno1\n" ::
              strL "  void m2() \x7b\n" :: []))) :=
  C10_annotation_buffer_not_cleared (strL "void m") (strL "deprecated")
    [strL "note"] (strL "class A \x7b\n") (strL "  @Anno1\n")
    (strL "  void m1() \x7b\n") (strL "  x\n") (strL "  @Anno2\n")
    (strL "  void m2() \x7b\n") (strL "  ") (strL "  ")
    (by decide) (by decide) (by decide) (by decide) (by decide) (by decide)
    (by decide) (by decide) (by decide) (by decide) (by decide) (by decide)

end JavaEdit
